import Mathlib

/-!
Shallow embedding of `src/isdhcplib/type_rfc.py`: the RFC 3046 (DHCP Option 82)
suboption decoder with its Agent Info accessors, and the RFC 3442 classless
static route encoder.

Bytes are modelled as `List Nat` (Python 2 treats the option value as a list of
ints).  Python exceptions are modelled with `Except String`: an `.error` value
corresponds to the Python call raising.  Python dicts restricted to the usage in
this file (singleton construction plus `update`) are modelled as association
lists with unique keys, where `update` overwrites existing keys.
-/

namespace Isdhcplib

abbrev Bytes := List Nat

abbrev SubDict := List (Nat × Bytes)

/-- Python `d1.update(d2)` (then using `d1`): every key of `d2` overwrites the
matching key of `d1`; keys of `d1` not in `d2` are kept. -/
def dictUpdate (d1 d2 : SubDict) : SubDict :=
  d1.filter (fun p => (d2.lookup p.1).isNone) ++ d2

/-- Python `d[k]` lookup on the association-list model of the dict. -/
def dictGet (d : SubDict) (k : Nat) : Option Bytes :=
  d.lookup k

/-- `RFC3046._parseSuboption`: recursively split a buffer into
SubOpt/Length/Value tuples.  Raises (`.error`) when fewer than 2 bytes remain
or when a declared suboption length exceeds the bytes available. -/
def parseSuboption : Bytes → Except String SubDict
  | [] => .error "Suboption decode failed. Expected at least 2 bytes, got 0 bytes"
  | [_] => .error "Suboption decode failed. Expected at least 2 bytes, got 1 bytes"
  | suboption_id :: suboption_len :: rest =>
    let suboption_value := rest.take suboption_len
    if suboption_value.length ≠ suboption_len then
      .error "Suboption format mismatch."
    else if rest.length > suboption_len then
      match parseSuboption (rest.drop suboption_len) with
      | .ok d => .ok (dictUpdate [(suboption_id, suboption_value)] d)
      | .error e => .error e
    else
      .ok [(suboption_id, suboption_value)]
termination_by data => data.length
decreasing_by
  simp only [List.length_cons, List.length_drop]; omega

/-- Well-formedness of a buffer as a concatenation of suboption TLVs: at least
2 bytes, the declared length byte consistent with the remaining bytes, and the
remainder (when non-empty) again well formed. -/
def wfSuboptions : Bytes → Bool
  | [] => false
  | [_] => false
  | _ :: suboption_len :: rest =>
    if suboption_len ≤ rest.length then
      if rest.length > suboption_len then wfSuboptions (rest.drop suboption_len)
      else true
    else false
termination_by data => data.length
decreasing_by
  simp only [List.length_cons, List.length_drop]; omega

/-- Instrumentation of `parseSuboption`: the same recursion, but returning the
full front-to-back list of parsed TLV entries instead of the merged dict, so
that the total number of consumed bytes can be stated. -/
def suboptionEntries : Bytes → Option (List (Nat × Bytes))
  | [] => none
  | [_] => none
  | suboption_id :: suboption_len :: rest =>
    let suboption_value := rest.take suboption_len
    if suboption_value.length ≠ suboption_len then
      none
    else if rest.length > suboption_len then
      match suboptionEntries (rest.drop suboption_len) with
      | some es => some ((suboption_id, suboption_value) :: es)
      | none => none
    else
      some [(suboption_id, suboption_value)]
termination_by data => data.length
decreasing_by
  simp only [List.length_cons, List.length_drop]; omega

/-- `RFC3046._decodeSuboptionAttr`: the lenient inner attribute decoder.
Returns `[]` on inputs shorter than 2 bytes; the value slice silently
truncates when the declared attribute length exceeds the remaining bytes. -/
def decodeSuboptionAttr : Bytes → List (Nat × Bytes)
  | [] => []
  | [_] => []
  | attr_type :: attr_len :: rest =>
    let attr := (attr_type, rest.take attr_len)
    if rest.length > attr_len then
      attr :: decodeSuboptionAttr (rest.drop attr_len)
    else
      [attr]
termination_by data => data.length
decreasing_by
  simp only [List.length_cons, List.length_drop]; omega

/-- The state of an `RFC3046` instance after `__init__` has run. -/
structure RFC3046 where
  raw : Bytes
  suboptions : SubDict
  agent_circuit_id : List (Nat × Bytes)
  agent_remote_id : List (Nat × Bytes)

/-- The loop at the end of `RFC3046.__init__`: iterate over the decoded
suboptions and decode the attributes of the two well-known ids
(1 = Agent Circuit ID, 2 = Agent Remote ID); both start out as `[]`.
Returns `(agent_circuit_id, agent_remote_id)`. -/
def assignWellKnown (subs : SubDict) : List (Nat × Bytes) × List (Nat × Bytes) :=
  subs.foldl
    (fun acc p =>
      if p.1 = 1 then (decodeSuboptionAttr p.2, acc.2)
      else if p.1 = 2 then (acc.1, decodeSuboptionAttr p.2)
      else acc)
    ([], [])

/-- `RFC3046.__init__`: keep the raw data, decode the suboptions (which may
raise), then decode the well-known suboption attributes. -/
def RFC3046.init (data : Bytes) : Except String RFC3046 :=
  match parseSuboption data with
  | .error e => .error e
  | .ok subs =>
    let acc := assignWellKnown subs
    .ok ⟨data, subs, acc.1, acc.2⟩

/-- `RFC3046.__nonzero__`. -/
def RFC3046.nonzero (a : RFC3046) : Bool :=
  a.raw.length > 0

/-- `RFC3046.__len__`. -/
def RFC3046.len (a : RFC3046) : Nat :=
  a.raw.length

/-- Byte values Python's `int(s, 16)` treats as an ASCII hexadecimal digit. -/
def isHexDigitByte (c : Nat) : Bool :=
  (48 ≤ c && c ≤ 57) || (65 ≤ c && c ≤ 70) || (97 ≤ c && c ≤ 102)

/-- Numeric value of an ASCII hexadecimal digit byte. -/
def hexDigitVal (c : Nat) : Nat :=
  if c ≤ 57 then c - 48 else if c ≤ 70 then c - 55 else c - 87

/-- Byte values Python 2's `int(s, 16)` strips as whitespace on a byte
string: only the C-locale whitespace characters (tab, LF, VT, FF, CR,
space). -/
def isPySpaceByte (c : Nat) : Bool :=
  (9 ≤ c && c ≤ 13) || c = 32

/-- Python `int(s, 16)` on the two-character string made of the Latin-1 code
points `a` and `b`: `none` models the `ValueError` raise.  Accepts two hex
digits, a hex digit with stripped whitespace on either side, or a sign
followed by one digit (the minus sign cannot occur here, dashes being
filtered out before pairing). -/
def pyIntHex2 (a b : Nat) : Option Nat :=
  if isHexDigitByte a && isHexDigitByte b then
    some (16 * hexDigitVal a + hexDigitVal b)
  else if isPySpaceByte a && isHexDigitByte b then some (hexDigitVal b)
  else if isHexDigitByte a && isPySpaceByte b then some (hexDigitVal a)
  else if a = 43 && isHexDigitByte b then some (hexDigitVal b)
  else none

/-- Python extended slice `l[::2]` (every second element, starting at 0). -/
def everyOther : Bytes → Bytes
  | [] => []
  | [x] => [x]
  | x :: _ :: xs => x :: everyOther xs

/-- The `zip(l[::2], l[1::2])` pairing used by the D-Link Remote ID decode. -/
def hexPairs (l : Bytes) : List (Nat × Nat) :=
  List.zip (everyOther l) (everyOther (l.drop 1))

/-- `RFC3046.AgentRemoteId` property.  A 6-byte type-0 value is returned
unchanged; a 17-byte type-1 value is treated as a dash-separated ASCII hex
string (buggy D-Link format): dashes (byte 45) are stripped and the remaining
characters converted pairwise by `int(s, 16)` — which raises (`.error`) on
non-hex content.  Any other shape yields `none`. -/
def RFC3046.AgentRemoteId (a : RFC3046) : Except String (Option Bytes) :=
  match a.agent_remote_id with
  | [] => .ok none
  | (remote_id_type, remote_id) :: _ =>
    if remote_id_type = 0 && remote_id.length = 6 then .ok (some remote_id)
    else if remote_id_type = 1 && remote_id.length = 17 then
      match (hexPairs (remote_id.filter (fun i => i ≠ 45))).mapM
          (fun p => pyIntHex2 p.1 p.2) with
      | some decoded => .ok (some decoded)
      | none => .error "invalid literal for int with base 16"
    else .ok none

/-- `RFC3046.AgentCircuitId` property: a 4-byte type-0 value decodes as the
D-Link `(vlan, module, port)` triple; anything else yields `none`. -/
def RFC3046.AgentCircuitId (a : RFC3046) : Option (Nat × Nat × Nat) :=
  match a.agent_circuit_id with
  | [] => none
  | (attr_type, attr_value) :: _ =>
    if attr_type = 0 && attr_value.length = 4 then
      some (attr_value.getD 0 0 * 256 + attr_value.getD 1 0,
            attr_value.getD 2 0, attr_value.getD 3 0)
    else none

example : parseSuboption [1, 2, 5, 6] = .ok [(1, [5, 6])] := by
  simp [parseSuboption, dictUpdate]

example : (parseSuboption [5]).isOk = false := by
  simp [parseSuboption, Except.isOk, Except.toBool]

example : (parseSuboption [1, 10, 65]).isOk = false := by
  simp [parseSuboption, Except.isOk, Except.toBool]

example : parseSuboption [1, 1, 9, 2, 1, 8] = .ok [(1, [9]), (2, [8])] := by
  simp [parseSuboption, dictUpdate]

example : parseSuboption [1, 1, 9, 1, 1, 8] = .ok [(1, [8])] := by
  simp [parseSuboption, dictUpdate]

example : decodeSuboptionAttr [] = [] := by simp [decodeSuboptionAttr]

example : decodeSuboptionAttr [1] = [] := by simp [decodeSuboptionAttr]

example : decodeSuboptionAttr [3, 10, 65] = [(3, [65])] := by
  simp [decodeSuboptionAttr]

/-- The ASCII bytes of the string AA-BB-CC-DD-EE-FF. -/
def dashHexSample : Bytes :=
  [65, 65, 45, 66, 66, 45, 67, 67, 45, 68, 68, 45, 69, 69, 45, 70, 70]

example :
    (RFC3046.init [1, 6, 0, 4, 1, 2, 3, 4]).map RFC3046.AgentCircuitId =
      .ok (some (258, 3, 4)) := by
  simp [RFC3046.init, parseSuboption, assignWellKnown, decodeSuboptionAttr,
    RFC3046.AgentCircuitId, Except.map]

example :
    (RFC3046.init ([2, 8, 0, 6] ++ [170, 187, 204, 221, 238, 255])).map
        RFC3046.AgentRemoteId =
      .ok (.ok (some [170, 187, 204, 221, 238, 255])) := by
  simp [RFC3046.init, parseSuboption, assignWellKnown, decodeSuboptionAttr,
    RFC3046.AgentRemoteId, Except.map]

example :
    (RFC3046.init ([2, 19, 1, 17] ++ dashHexSample)).map RFC3046.AgentRemoteId =
      .ok (.ok (some [170, 187, 204, 221, 238, 255])) := by
  simp [RFC3046.init, parseSuboption, assignWellKnown, decodeSuboptionAttr,
    RFC3046.AgentRemoteId, Except.map, dashHexSample, hexPairs, everyOther,
    List.mapM, List.mapM.loop, pyIntHex2, isHexDigitByte, hexDigitVal,
    isPySpaceByte]

example :
    (RFC3046.init ([2, 19, 1, 17] ++ List.replicate 17 0)).map
        RFC3046.AgentRemoteId =
      .ok (.error "invalid literal for int with base 16") := by
  simp [RFC3046.init, parseSuboption, assignWellKnown, decodeSuboptionAttr,
    RFC3046.AgentRemoteId, Except.map, List.replicate, hexPairs, everyOther,
    List.mapM, List.mapM.loop, pyIntHex2, isHexDigitByte, isPySpaceByte]


/-- One entry of `RFC3442._routes`: the tuple
`(IPNetwork(subnet).prefixlen, IPNetwork(subnet).network.words, IPAddress(gw).words)`
(the redundant first component `IPNetwork(subnet).network` of the source tuple
is dropped, being unused by `ListClasslessRoutes`). -/
structure Route where
  prefixlen : Nat
  words : Bytes
  gw : Bytes

/-- The 32-bit value of four address octets. -/
def wordsToNat (w : Bytes) : Nat :=
  w.getD 0 0 * 2 ^ 24 + w.getD 1 0 * 2 ^ 16 + w.getD 2 0 * 2 ^ 8 + w.getD 3 0

/-- The four octets of a 32-bit address value. -/
def natToWords (n : Nat) : Bytes :=
  [n / 2 ^ 24 % 256, n / 2 ^ 16 % 256, n / 2 ^ 8 % 256, n % 256]

/-- Modelled from the spec: the network address computed by `netaddr`'s
`IPNetwork(subnet).network` (netaddr is an external dependency, not part of
src/) — "Zero any host bits of the network address beyond the prefix length". -/
def networkAddr (addr : Nat) (prefixlen : Nat) : Nat :=
  addr / 2 ^ (32 - prefixlen) * 2 ^ (32 - prefixlen)

/-- Modelled from the spec: building one `RFC3442._routes` entry from a subnet
whose address octets are `w` with prefix length `prefixlen`, and a gateway
whose octets are `gw` — both already parsed from their strings (`IPNetwork` /
`IPAddress` string parsing is external to src/). -/
def mkRoute (w : Bytes) (prefixlen : Nat) (gw : Bytes) : Route :=
  ⟨prefixlen, natToWords (networkAddr (wordsToNat w) prefixlen), gw⟩

/-- `RFC3442.ListClasslessRoutes`: for each route append the prefix length,
then `words[i]` for each `i < 4` with `prefixlen > i*8`, then the four
gateway octets. -/
def ListClasslessRoutes (routes : List Route) : Bytes :=
  routes.foldl
    (fun result route =>
      result ++ [route.prefixlen] ++
        ((List.range 4).filterMap
          (fun i => if route.prefixlen > i * 8 then some (route.words.getD i 0)
            else none)) ++
        route.gw)
    []

example :
    ListClasslessRoutes [mkRoute [10, 0, 0, 0] 8 [10, 0, 0, 1]] =
      [8, 10, 10, 0, 0, 1] := by decide

example :
    ListClasslessRoutes [mkRoute [0, 0, 0, 0] 0 [10, 0, 0, 1]] =
      [0, 10, 0, 0, 1] := by decide

example :
    ListClasslessRoutes [mkRoute [192, 168, 1, 0] 25 [192, 168, 1, 1]] =
      [25, 192, 168, 1, 0, 192, 168, 1, 1] := by decide

example :
    ListClasslessRoutes [mkRoute [10, 0, 0, 77] 8 [10, 0, 0, 1]] =
      [8, 10, 10, 0, 0, 1] := by decide

/-- Auxiliary strong induction (on a length bound): the outer decoder succeeds
exactly on well-formed buffers. -/
theorem parse_isOk_eq_wf_aux :
    ∀ (n : Nat) (data : Bytes), data.length ≤ n →
      (parseSuboption data).isOk = wfSuboptions data := by
  intro n
  induction n with
  | zero =>
    intro data h
    match data with
    | [] => simp [parseSuboption, wfSuboptions, Except.isOk, Except.toBool]
  | succ n ih =>
    intro data h
    match data with
    | [] => simp [parseSuboption, wfSuboptions, Except.isOk, Except.toBool]
    | [_] => simp [parseSuboption, wfSuboptions, Except.isOk, Except.toBool]
    | i :: l :: rest =>
      rw [parseSuboption, wfSuboptions]
      by_cases hl : l ≤ rest.length
      · have htake : (rest.take l).length = l := by
          rw [List.length_take]; omega
        by_cases hg : rest.length > l
        · have hrec := ih (rest.drop l) (by
            simp only [List.length_cons] at h
            simp only [List.length_drop]; omega)
          simp only [htake, ne_eq, not_true_eq_false, if_false, hl, hg,
            if_true, gt_iff_lt, ite_true]
          cases hp : parseSuboption (rest.drop l) with
          | ok d =>
            rw [hp] at hrec
            simp only [Except.isOk, Except.toBool] at hrec ⊢
            exact hrec
          | error e =>
            rw [hp] at hrec
            simp only [Except.isOk, Except.toBool] at hrec ⊢
            exact hrec
        · simp [htake, hl, hg, Except.isOk, Except.toBool]
      · have htake : (rest.take l).length ≠ l := by
          rw [List.length_take]; omega
        simp [htake, hl, Except.isOk, Except.toBool]

/-- The outer decoder succeeds exactly on well-formed buffers. -/
theorem parse_isOk_eq_wf (data : Bytes) :
    (parseSuboption data).isOk = wfSuboptions data :=
  parse_isOk_eq_wf_aux data.length data le_rfl

/-- Auxiliary strong induction: on a well-formed buffer the entry
instrumentation succeeds and the consumed byte counts sum to the buffer
length. -/
theorem entries_sum_aux :
    ∀ (n : Nat) (data : Bytes), data.length ≤ n → wfSuboptions data = true →
      ∃ es, suboptionEntries data = some es ∧
        (es.map (fun e => 2 + e.2.length)).sum = data.length := by
  intro n
  induction n with
  | zero =>
    intro data h hwf
    match data with
    | [] => simp [wfSuboptions] at hwf
  | succ n ih =>
    intro data h hwf
    match data with
    | [] => simp [wfSuboptions] at hwf
    | [_] => simp [wfSuboptions] at hwf
    | i :: l :: rest =>
      rw [wfSuboptions] at hwf
      by_cases hl : l ≤ rest.length
      · have htake : (rest.take l).length = l := by
          rw [List.length_take]; omega
        rw [suboptionEntries]
        by_cases hg : rest.length > l
        · simp only [hl, hg, if_true, if_pos] at hwf
          obtain ⟨es, hes, hsum⟩ := ih (rest.drop l) (by
            simp only [List.length_cons] at h
            simp only [List.length_drop]; omega) hwf
          refine ⟨(i, rest.take l) :: es, ?_, ?_⟩
          · simp [htake, hg, hes]
          · simp [List.length_drop] at hsum
            simp [htake, hsum]
            omega
        · refine ⟨[(i, rest.take l)], ?_, ?_⟩
          · simp [htake, hg]
          · simp [htake]
            omega
      · simp [hl] at hwf

/-- C1: for every buffer that is a well-formed concatenation of suboption
TLVs (at least 2 bytes, every declared length byte consistent with the
remaining bytes), `_parseSuboption` returns a mapping without raising, and
the total number of bytes consumed across all parsed TLV entries (2 header
bytes plus the value bytes of each entry) equals the buffer length. -/
theorem C1_wf_decode_total (data : Bytes) (h : wfSuboptions data = true) :
    (parseSuboption data).isOk = true ∧
      ∃ es, suboptionEntries data = some es ∧
        (es.map (fun e => 2 + e.2.length)).sum = data.length := by
  refine ⟨?_, entries_sum_aux data.length data le_rfl h⟩
  rw [parse_isOk_eq_wf]
  exact h

/-- Witness for C1 at the concrete two-entry buffer `[1, 2, 5, 6] ++ [2, 1, 9]`. -/
theorem C1_wf_decode_total_witness :
    (parseSuboption [1, 2, 5, 6, 2, 1, 9]).isOk = true ∧
      ∃ es, suboptionEntries [1, 2, 5, 6, 2, 1, 9] = some es ∧
        (es.map (fun e => 2 + e.2.length)).sum = 7 :=
  C1_wf_decode_total [1, 2, 5, 6, 2, 1, 9] (by simp [wfSuboptions])

/-- C4: the outer decoder fails exactly on malformed input — it succeeds
precisely when the buffer is a well-formed TLV concatenation (so it fails
when the buffer or a recursive remainder is shorter than 2 bytes, and when a
declared suboption length exceeds the bytes remaining); in particular it
raises on `[5]` and on `[1, 10, 0x41]`. -/
theorem C4_error_iff_malformed :
    (∀ data : Bytes, (parseSuboption data).isOk = wfSuboptions data) ∧
      (parseSuboption [5]).isOk = false ∧
      (parseSuboption [1, 10, 65]).isOk = false := by
  refine ⟨parse_isOk_eq_wf, ?_, ?_⟩ <;>
    simp [parseSuboption, Except.isOk, Except.toBool]

/-- C3: on a buffer made of two suboption TLV entries carrying the same id,
the decoded mapping holds the value bytes of the later occurrence (last
occurrence wins on duplicate ids). -/
theorem C3_duplicate_last_wins (i n1 n2 : Nat) (v1 v2 : Bytes)
    (h1 : v1.length = n1) (h2 : v2.length = n2) :
    ∃ d, parseSuboption (i :: n1 :: (v1 ++ i :: n2 :: v2)) = .ok d ∧
      dictGet d i = some v2 := by
  subst h1
  subst h2
  have htake : (v1 ++ i :: v2.length :: v2).take v1.length = v1 :=
    List.take_left v1 _
  have hdrop : (v1 ++ i :: v2.length :: v2).drop v1.length = i :: v2.length :: v2 :=
    List.drop_left v1 _
  have hlen : (v1 ++ i :: v2.length :: v2).length > v1.length := by
    simp [List.length_append]
  have hinner : parseSuboption (i :: v2.length :: v2) = .ok [(i, v2)] := by
    rw [parseSuboption]
    simp [List.take_of_length_le (Nat.le_refl v2.length), List.take_length]
  rw [parseSuboption]
  simp only [htake, hdrop, hlen, if_true, ne_eq, not_true_eq_false, if_false,
    gt_iff_lt, ite_true]
  rw [hinner]
  refine ⟨_, rfl, ?_⟩
  simp [dictGet, dictUpdate]

/-- Witness for C3: id 7 occurs twice; the mapping keeps the second value. -/
theorem C3_duplicate_last_wins_witness :
    ∃ d, parseSuboption (7 :: 1 :: ([9] ++ 7 :: 2 :: [8, 8])) = .ok d ∧
      dictGet d 7 = some [8, 8] :=
  C3_duplicate_last_wins 7 1 2 [9] [8, 8] rfl rfl

/-- C5: `_decodeSuboptionAttr` is total and lenient — any input shorter than
2 bytes (in particular `[]` and `[0x01]`) yields the empty sequence, and a
declared attribute length exceeding the remaining bytes silently truncates
the value to the bytes available instead of raising. -/
theorem C5_attr_decoder_lenient :
    (∀ v : Bytes, v.length < 2 → decodeSuboptionAttr v = []) ∧
      decodeSuboptionAttr [] = [] ∧ decodeSuboptionAttr [1] = [] ∧
      ∀ (attr_type attr_len : Nat) (rest : Bytes), rest.length < attr_len →
        decodeSuboptionAttr (attr_type :: attr_len :: rest) =
          [(attr_type, rest)] := by
  refine ⟨?_, by simp [decodeSuboptionAttr], by simp [decodeSuboptionAttr], ?_⟩
  · intro v hv
    match v with
    | [] => simp [decodeSuboptionAttr]
    | [x] => simp [decodeSuboptionAttr]
    | a :: b :: t => simp at hv; omega
  · intro t n rest h
    rw [decodeSuboptionAttr]
    have htake : rest.take n = rest := List.take_of_length_le (by omega)
    rw [if_neg (by omega : ¬ rest.length > n), htake]

/-- Witness for C5: a declared length of 10 with one byte left truncates. -/
theorem C5_attr_decoder_lenient_witness :
    decodeSuboptionAttr [3, 10, 65] = [(3, [65])] :=
  C5_attr_decoder_lenient.2.2.2 3 10 [65] (by decide)

/-- C10: `RFC3046.__init__` unconditionally decodes its buffer, so a raw
buffer of length 0 or 1 always raises the outer decoder format error, and
consequently every constructible instance has a non-empty raw buffer. -/
theorem C10_short_init_raises :
    (∀ data : Bytes, data.length < 2 → (RFC3046.init data).isOk = false) ∧
      ∀ (data : Bytes) (a : RFC3046), RFC3046.init data = .ok a →
        0 < a.raw.length := by
  constructor
  · intro data h
    match data with
    | [] => simp [RFC3046.init, parseSuboption, Except.isOk, Except.toBool]
    | [x] => simp [RFC3046.init, parseSuboption, Except.isOk, Except.toBool]
    | a :: b :: t => simp at h; omega
  · intro data a ha
    match data with
    | [] => rw [RFC3046.init, parseSuboption] at ha; exact absurd ha (by simp)
    | [x] => rw [RFC3046.init, parseSuboption] at ha; exact absurd ha (by simp)
    | x :: y :: t =>
      have hraw : a.raw = x :: y :: t := by
        rw [RFC3046.init] at ha
        cases hp : parseSuboption (x :: y :: t) with
        | error e => rw [hp] at ha; exact absurd ha (by simp)
        | ok subs =>
          rw [hp] at ha
          simp only [Except.ok.injEq] at ha
          rw [← ha]
      rw [hraw]
      simp

/-- Witness for C10: construction from the empty buffer fails. -/
theorem C10_short_init_raises_witness :
    (RFC3046.init ([] : Bytes)).isOk = false :=
  C10_short_init_raises.1 [] (by decide)

/-- C2 counterexample: the claim that the accessors never raise is false —
an `AgentInfo` built from a well-formed buffer whose Remote ID attribute has
type 1 and a 17-byte all-zero value makes `AgentRemoteId` raise `ValueError`
(the pairwise `int(s, 16)` conversion fails on non-hex characters). -/
theorem C2_accessor_raises_counterexample :
    (RFC3046.init ([2, 19, 1, 17] ++ List.replicate 17 0)).map
        RFC3046.AgentRemoteId =
      .ok (.error "invalid literal for int with base 16") := by
  simp [RFC3046.init, parseSuboption, assignWellKnown, decodeSuboptionAttr,
    RFC3046.AgentRemoteId, Except.map, List.replicate, hexPairs, everyOther,
    List.mapM, List.mapM.loop, pyIntHex2, isHexDigitByte, isPySpaceByte]

/-- C2 amended: `AgentCircuitId` never raises (it is a total function into an
option), and `AgentRemoteId` raises exactly when the first Remote ID
attribute has type 1 and a 17-byte value whose dash-stripped bytes fail the
pairwise hex conversion; in every other case the accessors return a typed
value or the absence value. -/
theorem C2_amended_remote_id_error_iff (a : RFC3046) :
    (a.AgentRemoteId).isOk = false ↔
      ∃ v rest, a.agent_remote_id = (1, v) :: rest ∧ v.length = 17 ∧
        (hexPairs (v.filter (fun i => i ≠ 45))).mapM
          (fun p => pyIntHex2 p.1 p.2) = none := by
  rcases h : a.agent_remote_id with _ | ⟨⟨t, v⟩, rest⟩
  · simp [RFC3046.AgentRemoteId, h, Except.isOk, Except.toBool]
  · by_cases h06 : t = 0 ∧ v.length = 6
    · simp [RFC3046.AgentRemoteId, h, h06.1, h06.2, Except.isOk, Except.toBool]
    · by_cases h117 : t = 1 ∧ v.length = 17
      · simp only [RFC3046.AgentRemoteId, h]
        rw [if_neg (by simp [h117.1]), if_pos (by simp [h117.1, h117.2])]
        cases hm : (hexPairs (v.filter (fun i => i ≠ 45))).mapM
            (fun p => pyIntHex2 p.1 p.2) with
        | some decoded =>
          constructor
          · intro hfalse
            exact absurd hfalse (by simp [Except.isOk, Except.toBool])
          · rintro ⟨v2, rest2, heq, hlen, hnone⟩
            simp only [List.cons.injEq, Prod.mk.injEq] at heq
            rw [← heq.1.2, hm] at hnone
            exact absurd hnone (by simp)
        | none =>
          refine ⟨fun _ => ⟨v, rest, ?_, h117.2, hm⟩, fun _ => rfl⟩
          rw [h117.1]
      · simp only [RFC3046.AgentRemoteId, h]
        rw [if_neg (by simpa using h06), if_neg (by simpa using h117)]
        constructor
        · intro hfalse
          exact absurd hfalse (by simp [Except.isOk, Except.toBool])
        · rintro ⟨v2, rest2, heq, hlen, hnone⟩
          simp only [List.cons.injEq, Prod.mk.injEq] at heq
          exact absurd ⟨heq.1.1, by rw [heq.1.2]; exact hlen⟩ h117

/-- C7: `AgentRemoteId` returns a type-0 6-byte first attribute unchanged,
and decodes the 17-byte type-1 dash-separated ASCII hex format: the buffer
carrying the ASCII string AA-BB-CC-DD-EE-FF yields the six bytes
`[0xAA, 0xBB, 0xCC, 0xDD, 0xEE, 0xFF]`. -/
theorem C7_remote_id_formats :
    (∀ (a : RFC3046) (v : Bytes) (rest : List (Nat × Bytes)),
        a.agent_remote_id = (0, v) :: rest → v.length = 6 →
        a.AgentRemoteId = .ok (some v)) ∧
      (RFC3046.init ([2, 19, 1, 17] ++ dashHexSample)).map
          RFC3046.AgentRemoteId =
        .ok (.ok (some [170, 187, 204, 221, 238, 255])) := by
  constructor
  · intro a v rest h hlen
    simp only [RFC3046.AgentRemoteId, h]
    rw [if_pos (by simp [hlen])]
  · simp [RFC3046.init, parseSuboption, assignWellKnown, decodeSuboptionAttr,
      RFC3046.AgentRemoteId, Except.map, dashHexSample, hexPairs, everyOther,
      List.mapM, List.mapM.loop, pyIntHex2, isHexDigitByte, hexDigitVal,
      isPySpaceByte]

/-- Witness for C7 at a concrete view with a type-0 6-byte Remote ID. -/
theorem C7_remote_id_formats_witness :
    RFC3046.AgentRemoteId ⟨[], [], [], [(0, [1, 2, 3, 4, 5, 6])]⟩ =
      .ok (some [1, 2, 3, 4, 5, 6]) :=
  C7_remote_id_formats.1 ⟨[], [], [], [(0, [1, 2, 3, 4, 5, 6])]⟩
    [1, 2, 3, 4, 5, 6] [] rfl rfl

/-- C8: a type-0 4-byte Circuit ID first attribute decodes as
`(vlan, module, port)` with `vlan` the 16-bit big-endian value of the first
two bytes; the value `[0x01, 0x02, 0x03, 0x04]` gives `(258, 3, 4)`; any
other type/length combination yields the absence value. -/
theorem C8_circuit_id_decode :
    (∀ (a : RFC3046) (b0 b1 b2 b3 : Nat) (rest : List (Nat × Bytes)),
        a.agent_circuit_id = (0, [b0, b1, b2, b3]) :: rest →
        a.AgentCircuitId = some (b0 * 256 + b1, b2, b3)) ∧
      (∀ (a : RFC3046) (t : Nat) (v : Bytes) (rest : List (Nat × Bytes)),
        a.agent_circuit_id = (t, v) :: rest → ¬(t = 0 ∧ v.length = 4) →
        a.AgentCircuitId = none) ∧
      (RFC3046.init [1, 6, 0, 4, 1, 2, 3, 4]).map RFC3046.AgentCircuitId =
        .ok (some (258, 3, 4)) := by
  refine ⟨?_, ?_, ?_⟩
  · intro a b0 b1 b2 b3 rest h
    simp only [RFC3046.AgentCircuitId, h]
    rw [if_pos (by simp)]
    simp [List.getD]
  · intro a t v rest h hn
    simp only [RFC3046.AgentCircuitId, h]
    rw [if_neg (by simpa using hn)]
  · simp [RFC3046.init, parseSuboption, assignWellKnown, decodeSuboptionAttr,
      RFC3046.AgentCircuitId, Except.map]

/-- Witness for C8 at a concrete view: value bytes 01 02 03 04 give
vlan 258, module 3, port 4. -/
theorem C8_circuit_id_decode_witness :
    RFC3046.AgentCircuitId ⟨[], [], [(0, [1, 2, 3, 4])], []⟩ =
      some (258, 3, 4) :=
  C8_circuit_id_decode.1 ⟨[], [], [(0, [1, 2, 3, 4])], []⟩ 1 2 3 4 [] rfl

/-- The per-entry network-octet loop (append `words[i]` when
`prefixlen > i*8`) emits exactly the first `⌈prefixlen/8⌉` octets. -/
theorem significant_octets (p w0 w1 w2 w3 : Nat) (hp : p ≤ 32) :
    (List.range 4).filterMap
        (fun i => if p > i * 8 then some (([w0, w1, w2, w3] : Bytes).getD i 0)
          else none) =
      ([w0, w1, w2, w3] : Bytes).take ((p + 7) / 8) := by
  interval_cases p <;> rfl

/-- C6: a successfully parsed route entry encodes as one prefix-length byte,
then `⌈prefixLength/8⌉` leading octets of the network address with the host
bits beyond the prefix zeroed (0 octets when the prefix length is 0), then
all four gateway octets; `("10.0.0.0/8", "10.0.0.1")` encodes to
`[8, 10, 10, 0, 0, 1]`. -/
theorem C6_route_entry_encoding :
    (∀ (w gw : Bytes) (p : Nat), p ≤ 32 →
        ListClasslessRoutes [mkRoute w p gw] =
          p :: ((natToWords (networkAddr (wordsToNat w) p)).take ((p + 7) / 8))
            ++ gw ∧
          networkAddr (wordsToNat w) p % 2 ^ (32 - p) = 0) ∧
      ListClasslessRoutes [mkRoute [10, 0, 0, 0] 8 [10, 0, 0, 1]] =
        [8, 10, 10, 0, 0, 1] := by
  constructor
  · intro w gw p hp
    constructor
    · simp only [ListClasslessRoutes, List.foldl_cons, List.foldl_nil, mkRoute,
        natToWords]
      rw [significant_octets p _ _ _ _ hp]
      simp
    · exact Nat.mul_mod_left _ _
  · decide

/-- Witness for C6 at the spec example route 10.0.0.0/8 via 10.0.0.1. -/
theorem C6_route_entry_encoding_witness :
    ListClasslessRoutes [mkRoute [10, 0, 0, 0] 8 [10, 0, 0, 1]] =
        8 :: ((natToWords (networkAddr (wordsToNat [10, 0, 0, 0]) 8)).take
          ((8 + 7) / 8)) ++ [10, 0, 0, 1] ∧
      networkAddr (wordsToNat [10, 0, 0, 0]) 8 % 2 ^ (32 - 8) = 0 :=
  C6_route_entry_encoding.1 [10, 0, 0, 0] [10, 0, 0, 1] 8 (by decide)

/-- Generalized-accumulator form of the `ListClasslessRoutes` loop. -/
theorem listClasslessRoutes_foldl_acc (rs : List Route) :
    ∀ acc : Bytes,
      rs.foldl
        (fun result route =>
          result ++ [route.prefixlen] ++
            ((List.range 4).filterMap
              (fun i => if route.prefixlen > i * 8 then some (route.words.getD i 0)
                else none)) ++
            route.gw)
        acc = acc ++ ListClasslessRoutes rs := by
  induction rs with
  | nil => intro acc; simp [ListClasslessRoutes]
  | cons r rs ih =>
    intro acc
    rw [ListClasslessRoutes]
    simp only [List.foldl_cons]
    rw [ih, ih]
    simp [List.append_assoc]

/-- C9: the route encoder is a concatenation homomorphism over the input
order — the encoding of a concatenation of route lists is the concatenation
of their encodings, and the whole encoding is the in-order concatenation of
the per-entry fragments. -/
theorem C9_encode_concat_hom :
    (∀ rs ss : List Route,
        ListClasslessRoutes (rs ++ ss) =
          ListClasslessRoutes rs ++ ListClasslessRoutes ss) ∧
      ∀ rs : List Route,
        ListClasslessRoutes rs =
          (rs.map (fun r => ListClasslessRoutes [r])).flatten := by
  have happ : ∀ rs ss : List Route,
      ListClasslessRoutes (rs ++ ss) =
        ListClasslessRoutes rs ++ ListClasslessRoutes ss := by
    intro rs ss
    rw [ListClasslessRoutes, List.foldl_append, listClasslessRoutes_foldl_acc]
    rfl
  refine ⟨happ, ?_⟩
  intro rs
  induction rs with
  | nil => rfl
  | cons r rs ih =>
    have hsplit : r :: rs = [r] ++ rs := rfl
    rw [hsplit, happ, ih]
    simp

/-- Witness for the amended C2 at a concrete view with an all-zero 17-byte
type-1 Remote ID attribute. -/
theorem C2_amended_remote_id_error_iff_witness :
    (RFC3046.AgentRemoteId ⟨[], [], [], [(1, List.replicate 17 0)]⟩).isOk =
      false :=
  (C2_amended_remote_id_error_iff ⟨[], [], [], [(1, List.replicate 17 0)]⟩).2
    ⟨List.replicate 17 0, [], rfl, by decide, by decide⟩

end Isdhcplib
